import Mathlib

/-!
Verification development for the gamdl telegram bot
(`src/gamdl/telegram_bot/bot.py`). The Python source is shallowly embedded:
pure helpers become Lean functions, the stateful callback handler becomes an
explicit step function on a session map emitting an event trace, and the
concurrency primitives become small transition systems. Monotonic timestamps
and file modification times are modelled as rationals.
-/

namespace Gamdl

/-- Telegram hard per-file size ceiling: `MAX_TELEGRAM_FILE_BYTES = 2 * 1024 * 1024 * 1024`. -/
def MAX_TELEGRAM_FILE_BYTES : Nat := 2 * 1024 * 1024 * 1024

/-- Split a character list at every occurrence of `sep` (Python `s.split(sep)`
for a one-character separator; `acc` holds the current piece in reverse). -/
def splitOnCharAux (sep : Char) : List Char → List Char → List (List Char)
  | [], acc => [acc.reverse]
  | c :: cs, acc =>
    if c == sep then acc.reverse :: splitOnCharAux sep cs []
    else splitOnCharAux sep cs (c :: acc)

/-- Split a character list at every occurrence of `sep`. -/
def splitOnChar (sep : Char) (l : List Char) : List (List Char) :=
  splitOnCharAux sep l []

/-- Model of `pathlib.Path.suffix` on a file name: `"." + tail` from the last
dot, but empty when there is no dot, when the last dot is the first character
(`Path(".bashrc").suffix = ""`), or when it is the last character
(`Path("foo.").suffix = ""`). -/
def pySuffix (name : String) : String :=
  let parts := splitOnChar '.' name.data
  if parts.length ≥ 2 then
    let ext := parts.getLastD []
    if ext.isEmpty || parts.dropLast == [[]] then ""
    else String.mk ('.' :: ext)
  else ""

/-- ASCII `str.lower()`. -/
def lowerStr (s : String) : String := String.mk (s.data.map Char.toLower)

/-- `str.startswith(pre)`. -/
def strStartsWith (s pre : String) : Bool := pre.data.isPrefixOf s.data

/-- `str.strip()`: drop leading and trailing whitespace. -/
def pyStrip (s : String) : String :=
  String.mk (((s.data.dropWhile Char.isWhitespace).reverse.dropWhile Char.isWhitespace).reverse)

/-- Python slicing `s[:n]`. -/
def strTake (s : String) (n : Nat) : String := String.mk (s.data.take n)

/-- Python `sep.join(l)`. -/
def joinWith (sep : String) : List String → String
  | [] => ""
  | [x] => x
  | x :: y :: rest => x ++ sep ++ joinWith sep (y :: rest)

/-! ## Progress throttle (`_Throttle`, bot.py lines 496-506) -/

/-- `_Throttle`: `interval` is `interval_sec` (default 2.0), `last` is `self._last`,
initialised to `0.0` in `__init__`. Times are modelled as rationals. -/
structure Throttle where
  interval : ℚ
  last : ℚ
  deriving Repr, DecidableEq

/-- `_Throttle.__init__(interval_sec)`: sets `self._last = 0.0`. -/
def Throttle.init (interval : ℚ) : Throttle := ⟨interval, 0⟩

/-- `_Throttle.ok`: admit iff `now - self._last >= self.interval`; on admission
`self._last = now`. -/
def Throttle.ok (th : Throttle) (now : ℚ) : Bool × Throttle :=
  if th.interval ≤ now - th.last then (true, ⟨th.interval, now⟩) else (false, th)

/-- The subsequence of check times the throttle admits, folding `ok` over the
sequence of monotonic times at which `throttle.ok()` is called. -/
def admittedTimes (th : Throttle) : List ℚ → List ℚ
  | [] => []
  | t :: ts =>
    match th.ok t with
    | (true, th2) => t :: admittedTimes th2 ts
    | (false, th2) => admittedTimes th2 ts

/-! ## Job runner tail buffer (`_run_gamdl_stream`, bot.py lines 513-548) -/

/-- The last `n` elements of a list (Python `l[-n:]`). -/
def lastN (n : Nat) (l : List α) : List α := l.drop (l.length - n)

/-- One loop iteration's effect on `buf_tail`: `buf_tail.append(line)` followed by
`if len(buf_tail) > 50: buf_tail = buf_tail[-50:]`. The two statements are adjacent,
with no suspension point between them. -/
def pushTail (buf : List String) (line : String) : List String :=
  let b := buf ++ [line]
  if b.length > 50 then lastN 50 b else b

/-- `buf_tail` after the read loop of `_run_gamdl_stream` has consumed `lines`
(each decoded line is appended as `line.strip()`, modelled by `pyStrip`). -/
def streamTail (lines : List String) : List String :=
  lines.foldl (fun buf l => pushTail buf (pyStrip l)) []

/-- Result of `_run_gamdl_stream`: the subprocess exit code together with
`"\n".join(buf_tail[-10:])`. The exit code is the awaited `proc.wait()` value,
taken here as a parameter. -/
def runGamdlStream (returncode : Int) (lines : List String) : Int × String :=
  (returncode, joinWith "\n" (lastN 10 (streamTail lines)))

/-! ## Cleanup sweeper (`cleanup_temp_dirs`, bot.py lines 463-488) -/

/-- One entry of `base.iterdir()`: name, directory flag, and `stat().st_mtime`
(`none` models a `FileNotFoundError` from `stat`). -/
structure DirEntry where
  name : String
  isDir : Bool
  mtime : Option ℚ
  deriving Repr, DecidableEq

/-- `_is_older_than(path, cutoff)`: `mtime < cutoff`, with `False` when `stat`
raises `FileNotFoundError`. -/
def isOlderThan (e : DirEntry) (cutoff : ℚ) : Bool :=
  match e.mtime with
  | some m => decide (m < cutoff)
  | none => false

/-- The three `continue` guards of the sweep loop: only directories whose name
starts with the prefix and that are older than the cutoff are touched. -/
def isCleanupCandidate (pre : String) (cutoff : ℚ) (e : DirEntry) : Bool :=
  e.isDir && strStartsWith e.name pre && isOlderThan e cutoff

/-- The sweep loop: every candidate is attempted with `shutil.rmtree`; a raise
(modelled by `fails`) increments `errors`, success increments `removed` and
records the removed name; either way the loop continues with the next entry.
Returns `(removed, errors, names of directories actually removed)`. -/
def cleanupTempDirs (fails : String → Bool) (pre : String) (cutoff : ℚ) :
    List DirEntry → Nat × Nat × List String
  | [] => (0, 0, [])
  | e :: es =>
    let rest := cleanupTempDirs fails pre cutoff es
    if isCleanupCandidate pre cutoff e then
      if fails e.name then (rest.1, rest.2.1 + 1, rest.2.2)
      else (rest.1 + 1, rest.2.1, e.name :: rest.2.2)
    else rest

/-- `cleanup_temp_dirs(base, prefix, ttl_hours)` with
`cutoff = time.time() - ttl_hours * 3600.0`; `entries` lists `base.iterdir()`. -/
def cleanup_temp_dirs (fails : String → Bool) (entries : List DirEntry)
    (pre : String) (now ttlHours : ℚ) : Nat × Nat × List String :=
  cleanupTempDirs fails pre (now - ttlHours * 3600) entries

/-! ## Delivery classifier and batcher
(`_send_files_from_dir` lines 1068-1138, `_send_audios_as_groups` lines 992-1066,
`_chunked` lines 982-990, `_find_cover_image` lines 626-637) -/

/-- A regular file in the workspace tree, as enumerated by
`sorted(p for p in out_dir.rglob("*") if p.is_file())`: its file name (last path
component), whether it sits directly under the workspace root (relevant because
`root.glob(pattern)` is non-recursive while `root.rglob` is), and its byte size. -/
structure FileEntry where
  name : String
  topLevel : Bool
  size : Nat
  deriving Repr, DecidableEq

/-- `audio_exts = {".m4a", ".mp3", ".flac", ".wav"}`. -/
def audioExts : List String := [".m4a", ".mp3", ".flac", ".wav"]

/-- `video_exts = {".mp4", ".m4v", ".mov"}`. -/
def videoExts : List String := [".mp4", ".m4v", ".mov"]

/-- Image suffixes accepted by `_find_cover_image`: `{".jpg", ".jpeg", ".png"}`. -/
def imageExts : List String := [".jpg", ".jpeg", ".png"]

/-- `f.suffix.lower() in audio_exts`. -/
def isAudioFile (f : FileEntry) : Bool := decide (lowerStr (pySuffix f.name) ∈ audioExts)

/-- `f.suffix.lower() in video_exts`. -/
def isVideoFile (f : FileEntry) : Bool := decide (lowerStr (pySuffix f.name) ∈ videoExts)

/-- `p.suffix.lower() in {".jpg", ".jpeg", ".png"}`. -/
def isImageFile (f : FileEntry) : Bool := decide (lowerStr (pySuffix f.name) ∈ imageExts)

/-- `_chunked` helper: `acc` is the current batch in reverse; a batch is yielded
as soon as it reaches `n` elements, and a final partial batch is yielded at the end. -/
def chunkedAux (n : Nat) : List α → List α → List (List α)
  | [], acc => if acc.isEmpty then [] else [acc.reverse]
  | x :: xs, acc =>
    if (x :: acc).length == n then (x :: acc).reverse :: chunkedAux n xs []
    else chunkedAux n xs (x :: acc)

/-- `_chunked(it, size)`. -/
def chunked (n : Nat) (l : List α) : List (List α) := chunkedAux n l []

/-- The observable delivery operations of `_send_files_from_dir` and
`_send_audios_as_groups`: grouped audio uploads, individual video/document
uploads, and the user-visible notices. -/
inductive SendAction where
  | noFilesNotice
  | audioGroup (files : List FileEntry)
  | sendVideo (f : FileEntry)
  | sendDocument (f : FileEntry)
  | tooLargeNotice (f : FileEntry)
  | doneNotice
  deriving Repr, DecidableEq

/-- The per-video-file branch of `_send_files_from_dir` (lines 1092-1096): a
`file_too_large` notice when `size >= MAX_TELEGRAM_FILE_BYTES`, else a send. -/
def videoAction (f : FileEntry) : SendAction :=
  if MAX_TELEGRAM_FILE_BYTES ≤ f.size then SendAction.tooLargeNotice f
  else SendAction.sendVideo f

/-- The per-other-file branch of `_send_files_from_dir` (lines 1122-1126). -/
def otherAction (f : FileEntry) : SendAction :=
  if MAX_TELEGRAM_FILE_BYTES ≤ f.size then SendAction.tooLargeNotice f
  else SendAction.sendDocument f

/-- The sequence of delivery operations `_send_files_from_dir(chat, out_dir, sess)`
attempts, with the delivery API assumed to accept each attempt (the per-batch
`BadRequest` fallback of `_send_audios_as_groups` re-sends the same files, so the
set of attempted files is unchanged by it). Audio files are grouped into batches
of 10 with no size check; video files and other files are sent individually,
except that any such file with `size >= MAX_TELEGRAM_FILE_BYTES` yields a
`file_too_large` notice instead of a transfer attempt. A final `send_complete`
notice is emitted iff anything was sent. -/
def sendFilesFromDir (files : List FileEntry) : List SendAction :=
  if files.isEmpty then [SendAction.noFilesNotice]
  else
    let audioFiles := files.filter isAudioFile
    let videoFiles := files.filter isVideoFile
    let otherFiles := files.filter (fun f => !(isAudioFile f) && !(isVideoFile f))
    let audioActs := (chunked 10 audioFiles).map SendAction.audioGroup
    let videoActs := videoFiles.map videoAction
    let otherActs := otherFiles.map otherAction
    let sentAny := !audioActs.isEmpty
      || videoActs.any (fun a => match a with | SendAction.sendVideo _ => true | _ => false)
      || otherActs.any (fun a => match a with | SendAction.sendDocument _ => true | _ => false)
    audioActs ++ videoActs ++ otherActs ++ (if sentAny then [SendAction.doneNotice] else [])

/-- The conventional cover names tried by `_find_cover_image`, in order:
`("cover", "folder", "artwork", "Artwork", "Front", "front")`. -/
def COVER_NAMES : List String := ["cover", "folder", "artwork", "Artwork", "Front", "front"]

/-- `root.glob(f"{name}.*")` membership for one file: the file must sit directly
under `root` (glob is non-recursive) and its name must start with `name + "."`
(fnmatch `*` matches any tail); the match is case-sensitive. -/
def globMatch (n : String) (f : FileEntry) : Bool :=
  f.topLevel && strStartsWith f.name (n ++ ".")

/-- The `candidates` list of `_find_cover_image` after the suffix filter:
for each conventional name in order, the glob matches, then only
`.jpg`/`.jpeg`/`.png` files are kept. -/
def coverCandidates (files : List FileEntry) : List FileEntry :=
  (COVER_NAMES.flatMap (fun n => files.filter (globMatch n))).filter isImageFile

/-- `imgs.sort(key=lambda p: p.stat().st_size, reverse=True); imgs[0]`:
the earliest file of maximal size (Python's sort is stable). -/
def pickLargestFrom (best : FileEntry) : List FileEntry → FileEntry
  | [] => best
  | f :: fs => if f.size > best.size then pickLargestFrom f fs else pickLargestFrom best fs

/-- The largest image chosen by the fallback of `_find_cover_image`
(`none` on an empty list). -/
def pickLargest : List FileEntry → Option FileEntry
  | [] => none
  | f :: fs => some (pickLargestFrom f fs)

/-- `_find_cover_image(root)`: the first suffix-filtered conventional-name glob
candidate if any, else the largest image file anywhere in the tree, else `None`. -/
def findCoverImage (files : List FileEntry) : Option FileEntry :=
  match coverCandidates files with
  | c :: _ => some c
  | [] => pickLargest (files.filter isImageFile)

/-- Where the shared thumbnail for delivery comes from. -/
inductive ThumbSource where
  | fromFile (f : FileEntry)
  | fetchPoster (url : String)
  | noThumb
  deriving Repr, DecidableEq

/-- Lines 1074-1079 of `_send_files_from_dir`: use `_find_cover_image` when it
finds a file; otherwise fetch the previously resolved `sess["poster_url"]`
on demand (`_download_bytes`); otherwise no thumbnail. -/
def thumbSource (files : List FileEntry) (posterUrl : Option String) : ThumbSource :=
  match findCoverImage files with
  | some f => ThumbSource.fromFile f
  | none =>
    match posterUrl with
    | some u => ThumbSource.fetchPoster u
    | none => ThumbSource.noThumb

/-! ## Session store and callback state machine (`callbacks`, bot.py lines 841-979) -/

/-- One session record (`sessions[token]`): the fields the state machine reads
or writes. `statusMsg` records whether a status message is attached
(`status_chat_id`/`status_msg_id` present, set by `_create_status_message`). -/
structure Session where
  urls : List String
  userId : Nat
  preset : Option String := none
  statusMsg : Bool := false
  deriving Repr, DecidableEq

/-- The session store `context.bot_data["sessions"]`, a token-keyed mapping,
modelled as an association list with unique keys. -/
abbrev Sessions := List (String × Session)

/-- `sessions.get(token)`. -/
def lookupSession : Sessions → String → Option Session
  | [], _ => none
  | p :: ps, tok => if p.1 == tok then some p.2 else lookupSession ps tok

/-- `sessions.pop(token, None)`'s effect on the mapping. -/
def eraseSession (s : Sessions) (tok : String) : Sessions :=
  s.filter (fun p => !(p.1 == tok))

/-- In-place mutation of the record bound to `token` (Python dict values are
mutated through the `sess` reference). -/
def updateSession (s : Sessions) (tok : String) (v : Session) : Sessions :=
  s.map (fun p => if p.1 == tok then (tok, v) else p)

/-- `PRESET_LABELS`. -/
def PRESET_LABELS : List (String × String) :=
  [("default", "Default"), ("audio_aac256", "Audio (AAC 256kbps)"),
   ("video_1080p", "Video 1080p"), ("video_4k", "Video 4K")]

/-- `PRESET_LABELS.get(preset, preset)`. -/
def presetLabel (p : String) : String :=
  match PRESET_LABELS.find? (fun q => q.1 == p) with
  | some q => q.2
  | none => p

/-- `t("downloading_with_preset", preset=PRESET_LABELS.get(preset, preset))`
with the default locale strings. -/
def downloadingText (p : String) : String := "Downloading... (" ++ presetLabel p ++ ")"

/-- The failure status text: `t("download_failed")` plus, when the tail is
nonempty, a newline and the first 1500 characters of the diagnostic tail. -/
def downloadFailedText (tail : String) : String :=
  if tail ≠ "" then "Download failed." ++ "\n" ++ strTake tail 1500 else "Download failed."

/-- The observable effects of one callback dispatch: replies sent to the chat,
reply-markup edits, status-message operations, the subprocess launch, delivery
operations, and an exception escaping the handler. -/
inductive BotEvent where
  | reply (text : String)
  | editMarkup
  | createStatus (text : String)
  | setStatus (text : String)
  | clearStatus
  | launch
  | send (a : SendAction)
  | sendZip
  | exceptionEscaped
  deriving Repr, DecidableEq

/-- The four state-machine actions carried by callback data:
`cancel:{token}`, `back:{token}`, `q:{token}:{preset}`, `go:{token}:{preset}:{mode}`. -/
inductive CbAction where
  | cancel (token : String)
  | back (token : String)
  | choosePreset (token : String) (preset : String)
  | go (token : String) (preset : String) (mode : String)
  deriving Repr, DecidableEq

/-- Environment of one `go:` run: the downloader exit code and diagnostic tail
(from `_run_gamdl_stream`), the produced archive size (for zip mode), the
workspace files after a successful run, and whether the delivery phase raises an
exception that no handler inside `callbacks` catches (e.g. a `Forbidden` from
`send_media_group`, which only `BadRequest` handlers guard). -/
structure JobEnv where
  returncode : Int
  tailText : String
  zipSize : Nat
  files : List FileEntry
  deliveryRaises : Bool
  deriving Repr, DecidableEq

/-- One dispatch of the `callbacks` handler (bot.py lines 864-979), returning the
new session store and the emitted event trace. Faithful control flow:
`cancel:` pops the token unconditionally (no existence check), clears the reply
markup, deletes the status message only when the popped session had one, and
replies `cancel_ok`; `back:`/`q:`/`go:` reply `session_not_found` when the token
is absent. A present-token `go:` edits the markup, creates the status message,
launches the downloader (inside `DOWNLOAD_SEMAPHORE`, modelled separately), and
then branches on the exit code and mode. `sessions.pop(token, None)` at line 979
is NOT in a `finally`: when the delivery phase raises, the pop (and the
`_clear_status_message` at line 958) are skipped and the session survives. On
the raising paths the trace is truncated at the start of the delivery phase;
progress events (separately throttled) are not modelled here. -/
def callbacksStep (env : JobEnv) (sessions : Sessions) : CbAction → Sessions × List BotEvent
  | CbAction.cancel tok =>
    let sessOpt := lookupSession sessions tok
    (eraseSession sessions tok,
      [BotEvent.editMarkup] ++
      (match sessOpt with
       | some sess => if sess.statusMsg then [BotEvent.clearStatus] else []
       | none => []) ++
      [BotEvent.reply "Cancelled."])
  | CbAction.back tok =>
    match lookupSession sessions tok with
    | none => (sessions, [BotEvent.reply "Session not found."])
    | some _ => (sessions, [BotEvent.editMarkup])
  | CbAction.choosePreset tok p =>
    match lookupSession sessions tok with
    | none => (sessions, [BotEvent.reply "Session not found."])
    | some sess =>
      (updateSession sessions tok { sess with preset := some p }, [BotEvent.editMarkup])
  | CbAction.go tok p mode =>
    match lookupSession sessions tok with
    | none => (sessions, [BotEvent.reply "Session not found."])
    | some sess =>
      let sess1 : Session := { sess with statusMsg := true }
      let s1 := updateSession sessions tok sess1
      let pre := [BotEvent.editMarkup, BotEvent.createStatus (downloadingText p),
                  BotEvent.launch]
      if env.returncode ≠ 0 then
        (eraseSession s1 tok,
         pre ++ [BotEvent.setStatus (downloadFailedText env.tailText), BotEvent.clearStatus])
      else if mode == "zip" then
        if MAX_TELEGRAM_FILE_BYTES ≤ env.zipSize then
          if env.deliveryRaises then
            (s1, pre ++ [BotEvent.setStatus "Uploading ZIP...",
                         BotEvent.setStatus "ZIP exceeds 2GB — sending as individual files.",
                         BotEvent.exceptionEscaped])
          else
            (eraseSession s1 tok,
             pre ++ [BotEvent.setStatus "Uploading ZIP...",
                     BotEvent.setStatus "ZIP exceeds 2GB — sending as individual files."] ++
             (sendFilesFromDir env.files).map BotEvent.send ++ [BotEvent.clearStatus])
        else
          if env.deliveryRaises then
            (s1, pre ++ [BotEvent.setStatus "Uploading ZIP...", BotEvent.exceptionEscaped])
          else
            (eraseSession s1 tok,
             pre ++ [BotEvent.setStatus "Uploading ZIP...", BotEvent.sendZip,
                     BotEvent.reply "Done ✔️", BotEvent.clearStatus])
      else
        if env.deliveryRaises then
          (s1, pre ++ [BotEvent.setStatus "Uploading files...", BotEvent.exceptionEscaped])
        else
          (eraseSession s1 tok,
           pre ++ [BotEvent.setStatus "Uploading files..."] ++
           (sendFilesFromDir env.files).map BotEvent.send ++ [BotEvent.clearStatus])

/-! ## Dispatch of duplicate `go:` actions (claim C3)

Within one `go:` dispatch, the shared session store is touched in program
order at three points: the lookup `sessions.get(token)` at line 896, the
subprocess launch inside `_run_gamdl_stream` at line 927, and
`sessions.pop(token, None)` at line 979 — nothing removes or locks the
session before the launch. Across dispatches, the application built at
bot.py line 1168 (`Application.builder().token(...).build()`) keeps the
python-telegram-bot v20 defaults — `concurrent_updates=False` and blocking
handlers — so the update loop awaits each handler to completion before
dequeuing the next update: two rapid duplicate `go:` presses are processed
strictly one after the other, never interleaved. -/

/-- The session-store operations of one present-token `go:` dispatch, in the
program order of the handler. -/
inductive GoOp where
  | lookupTok
  | launch
  | popTok
  deriving Repr, DecidableEq

/-- Program order of the store operations of the `go:` handler: the lookup
(line 896), then the subprocess launch (line 927), then the pop (line 979). -/
def goHandlerOps : List GoOp := [GoOp.lookupTok, GoOp.launch, GoOp.popTok]

/-- Whether the token is still present in the store at the moment each
operation of a single dispatch executes, given its initial presence: only
`popTok` removes it (the lookup only reads; there is no locking operation). -/
def tokenPresentAt : List GoOp → Bool → List (GoOp × Bool)
  | [], _ => []
  | op :: ops, present =>
    (op, present) :: tokenPresentAt ops (if op == GoOp.popTok then false else present)

/-- Sequential dispatch of two callback updates, as performed by the PTB
application built at bot.py line 1168 with its default
`concurrent_updates=False` and blocking handlers: the second handler starts
only on the session store the first handler left behind. Returns the final
store and the two event traces. -/
def twoSequentialDispatches (env1 env2 : JobEnv) (s : Sessions) (a1 a2 : CbAction) :
    Sessions × List BotEvent × List BotEvent :=
  ((callbacksStep env2 (callbacksStep env1 s a1).1 a2).1,
   (callbacksStep env1 s a1).2,
   (callbacksStep env2 (callbacksStep env1 s a1).1 a2).2)

/-! ## Concurrency limiter (`DOWNLOAD_SEMAPHORE = asyncio.Semaphore(CONCURRENCY)`,
bot.py lines 117-118 and 923) -/

/-- Phase of one `go:` job execution with respect to
`async with DOWNLOAD_SEMAPHORE`: not yet admitted, inside the guarded region
(where the downloader subprocess runs), or finished (slot released — release
happens on every exit path of the `async with` block). -/
inductive Phase where
  | pending
  | running
  | finished
  deriving Repr, DecidableEq

/-- Number of flows currently inside the semaphore-guarded region; the
downloader subprocess of a flow runs only while its flow is in this region. -/
def runningCount (l : List Phase) : Nat := l.countP (fun p => p == Phase.running)

/-- `asyncio.Semaphore(cap)` semantics: a pending flow is admitted only while
fewer than `cap` flows hold the semaphore; a running flow may finish at any
time, releasing its slot. -/
inductive PoolStep (cap : Nat) : List Phase → List Phase → Prop
  | start (l1 l2 : List Phase) :
      runningCount (l1 ++ Phase.pending :: l2) < cap →
      PoolStep cap (l1 ++ Phase.pending :: l2) (l1 ++ Phase.running :: l2)
  | finish (l1 l2 : List Phase) :
      PoolStep cap (l1 ++ Phase.running :: l2) (l1 ++ Phase.finished :: l2)

/-- States reachable by any interleaving of semaphore acquisitions and releases. -/
def PoolReachable (cap : Nat) : List Phase → List Phase → Prop :=
  Relation.ReflTransGen (PoolStep cap)

/-- A file that the conventional-name pass of `_find_cover_image` can pick:
top-level, named `<conventional name>.<tail>` with one of the six literal
(case-sensitive) conventional names, and carrying an image suffix. -/
def conventionalCover (f : FileEntry) : Bool :=
  f.topLevel && COVER_NAMES.any (fun n => strStartsWith f.name (n ++ ".")) && isImageFile f

/-! # Theorems -/

/-! ## Throttle lemmas -/

/-- Prepending the throttle's recorded last-admission time to the admitted
subsequence yields a chain whose consecutive gaps are at least the interval. -/
theorem admitted_chain (ts : List ℚ) (th : Throttle) :
    List.Chain' (fun a b => th.interval ≤ b - a) (th.last :: admittedTimes th ts) := by
  induction ts generalizing th with
  | nil => simp [admittedTimes]
  | cons t ts ih =>
    by_cases h : th.interval ≤ t - th.last
    · have he : admittedTimes th (t :: ts) = t :: admittedTimes ⟨th.interval, t⟩ ts := by
        simp [admittedTimes, Throttle.ok, h]
      rw [he]
      refine List.chain'_cons.mpr ⟨h, ?_⟩
      simpa using ih ⟨th.interval, t⟩
    · have he : admittedTimes th (t :: ts) = admittedTimes th ts := by
        simp [admittedTimes, Throttle.ok, h]
      rw [he]
      exact ih th

/-! ## Tail buffer lemmas -/

theorem lastN_length_le (n : Nat) (l : List α) : (lastN n l).length ≤ n := by
  simp [lastN]
  omega

theorem pushTail_eq (buf : List String) (line : String) :
    pushTail buf line = lastN 50 (buf ++ [line]) := by
  simp only [pushTail]
  split
  · rfl
  · rename_i h
    have h0 : (buf ++ [line]).length - 50 = 0 := by omega
    simp only [lastN, h0, List.drop_zero]

theorem lastN_append (n : Nat) (a b : List α) :
    lastN n (lastN n a ++ b) = lastN n (a ++ b) := by
  rcases Nat.le_total a.length n with h | h
  · have h0 : a.length - n = 0 := by
      omega
    simp [lastN, h0]
  · unfold lastN
    rw [← List.drop_append_of_le_length (Nat.sub_le a.length n), List.drop_drop]
    simp only [List.length_drop, List.length_append]
    congr 1
    omega

theorem lastN_lastN (m n : Nat) (l : List α) (hmn : m ≤ n) :
    lastN m (lastN n l) = lastN m l := by
  unfold lastN
  rw [List.drop_drop]
  simp only [List.length_drop]
  congr 1
  omega

theorem foldl_pushTail (lines : List String) :
    ∀ buf : List String, buf.length ≤ 50 →
      lines.foldl (fun b l => pushTail b (pyStrip l)) buf
        = lastN 50 (buf ++ lines.map (fun l => pyStrip l)) := by
  induction lines with
  | nil =>
    intro buf h
    have h0 : buf.length - 50 = 0 := by omega
    simp [lastN, h0]
  | cons x ls ih =>
    intro buf h
    simp only [List.foldl_cons, List.map_cons]
    rw [pushTail_eq, ih _ (lastN_length_le _ _), lastN_append]
    simp

/-- The rolling tail after consuming the whole stream is exactly the last 50
stripped lines. -/
theorem streamTail_eq (lines : List String) :
    streamTail lines = lastN 50 (lines.map (fun l => pyStrip l)) := by
  simpa [streamTail] using foldl_pushTail lines [] (by simp)

/-! ## Cleanup sweep characterization -/

theorem cleanupTempDirs_eq (fails : String → Bool) (pre : String) (cutoff : ℚ)
    (entries : List DirEntry) :
    cleanupTempDirs fails pre cutoff entries
      = ((entries.filter (fun e => isCleanupCandidate pre cutoff e && !(fails e.name))).length,
         (entries.filter (fun e => isCleanupCandidate pre cutoff e && fails e.name)).length,
         (entries.filter
            (fun e => isCleanupCandidate pre cutoff e && !(fails e.name))).map (fun e => e.name)) := by
  induction entries with
  | nil => simp [cleanupTempDirs]
  | cons e es ih =>
    by_cases hc : isCleanupCandidate pre cutoff e
    · by_cases hf : fails e.name <;>
        simp [cleanupTempDirs, ih, hc, hf, List.filter_cons]
    · simp [cleanupTempDirs, ih, hc, List.filter_cons]

/-! ## Claim C6 -/

/-- C6 counterexample: with the default interval 2, a very first admission check
arriving at monotonic time 1 (which is less than the interval) is REJECTED,
because `_last` is initialised to `0.0` rather than to a sentinel: the claim
that the very first check after creation is always admitted is false. -/
theorem c6_counterexample :
    ((Throttle.init 2).ok 1).1 = false ∧ admittedTimes (Throttle.init 2) [1] = [] := by
  constructor
  · simp only [Throttle.ok, Throttle.init]
    norm_num
  · simp only [admittedTimes, Throttle.ok, Throttle.init]
    norm_num

/-- C6 (amended): a check at time `t` is admitted iff at least the interval has
elapsed since the most recent admitted check, where the throttle starts as if an
admission had happened at monotonic time 0; consequently the admitted checks of
any call sequence (prepended with that virtual time-0 admission) are pairwise at
least the interval apart, and the very first check is admitted iff its monotonic
time is at least the interval. -/
theorem c6_amended (i t : ℚ) (ts : List ℚ) :
    List.Chain' (fun a b => i ≤ b - a) ((0 : ℚ) :: admittedTimes (Throttle.init i) ts) ∧
    (((Throttle.init i).ok t).1 = true ↔ i ≤ t) := by
  constructor
  · simpa [Throttle.init] using admitted_chain ts (Throttle.init i)
  · by_cases h : i ≤ t <;> simp [Throttle.ok, Throttle.init, h]

/-! ## Claim C8 -/

/-- C8: while `_run_gamdl_stream` streams subprocess output the rolling tail
buffer `buf_tail` never exceeds 50 lines (its state after any prefix of the
stream is exactly the last 50 stripped lines seen, hence of length at most 50;
the append and the trim to 50 are adjacent statements with no suspension point
between them), and on process exit the runner returns the subprocess exit code
unchanged together with the last 10 tail lines joined by newlines. -/
theorem c8_tail_bound (code : Int) (lines : List String) (n : Nat) :
    streamTail (lines.take n) = lastN 50 ((lines.take n).map (fun l => pyStrip l)) ∧
    (streamTail (lines.take n)).length ≤ 50 ∧
    runGamdlStream code lines
      = (code, joinWith "\n" (lastN 10 (lines.map (fun l => pyStrip l)))) := by
  refine ⟨streamTail_eq _, ?_, ?_⟩
  · rw [streamTail_eq]
    exact lastN_length_le _ _
  · unfold runGamdlStream
    rw [streamTail_eq, lastN_lastN 10 50 _ (by omega)]

/-! ## Claim C9 -/

/-- C9: the sweep removes exactly the top-level directory entries whose name
starts with the prefix and whose modification time is strictly older than
`now - ttl*3600` and whose removal does not fail; removal failures are counted
in the second component and never stop later candidates from being processed
(the result is a pointwise filter over ALL entries, independent of earlier
failures). Concretely, with directories aged 1h, 25h and 48h and a 24h window,
only the 25h and 48h directories are removed; and when removal of the 25h one
fails, the 48h one is still removed and one error is counted. -/
theorem c9_cleanup (fails : String → Bool) (entries : List DirEntry)
    (pre : String) (now ttl : ℚ) :
    cleanup_temp_dirs fails entries pre now ttl
      = ((entries.filter
            (fun e => isCleanupCandidate pre (now - ttl * 3600) e && !(fails e.name))).length,
         (entries.filter
            (fun e => isCleanupCandidate pre (now - ttl * 3600) e && fails e.name)).length,
         (entries.filter
            (fun e => isCleanupCandidate pre (now - ttl * 3600) e
              && !(fails e.name))).map (fun e => e.name)) ∧
    cleanup_temp_dirs (fun _ => false)
      [⟨"gamdl_a", true, some 996400⟩, ⟨"gamdl_b", true, some 910000⟩,
       ⟨"gamdl_c", true, some 827200⟩]
      "gamdl_" 1000000 24 = (2, 0, ["gamdl_b", "gamdl_c"]) ∧
    cleanup_temp_dirs (fun nm => nm == "gamdl_b")
      [⟨"gamdl_a", true, some 996400⟩, ⟨"gamdl_b", true, some 910000⟩,
       ⟨"gamdl_c", true, some 827200⟩]
      "gamdl_" 1000000 24 = (1, 1, ["gamdl_c"]) := by
  have hq : (1000000 : ℚ) - 24 * 3600 = 913600 := by norm_num
  refine ⟨cleanupTempDirs_eq fails pre (now - ttl * 3600) entries, ?_, ?_⟩
  · unfold cleanup_temp_dirs
    rw [hq]
    decide
  · unfold cleanup_temp_dirs
    rw [hq]
    decide

/-! ## Session store lemmas -/

theorem erase_of_lookup_none (s : Sessions) (tok : String)
    (h : lookupSession s tok = none) : eraseSession s tok = s := by
  induction s with
  | nil => rfl
  | cons p ps ih =>
    by_cases hb : (p.1 == tok) = true
    · simp [lookupSession, hb] at h
    · simp only [lookupSession, hb, if_false] at h
      show (p :: ps).filter (fun q => !(q.1 == tok)) = p :: ps
      rw [List.filter_cons]
      simp only [hb, Bool.not_false, if_true]
      exact congrArg (p :: ·) (ih h)

theorem lookup_erase (s : Sessions) (tok : String) :
    lookupSession (eraseSession s tok) tok = none := by
  induction s with
  | nil => rfl
  | cons p ps ih =>
    by_cases hb : (p.1 == tok) = true
    · simpa [eraseSession, List.filter_cons, hb] using ih
    · simpa [eraseSession, List.filter_cons, hb, lookupSession] using ih

theorem lookup_update (s : Sessions) (tok : String) (v : Session) (sess : Session)
    (h : lookupSession s tok = some sess) :
    lookupSession (updateSession s tok v) tok = some v := by
  induction s with
  | nil => simp [lookupSession] at h
  | cons p ps ih =>
    by_cases hb : (p.1 == tok) = true
    · simp [updateSession, lookupSession, hb]
    · simp only [lookupSession, hb, if_false] at h
      simpa [updateSession, lookupSession, hb] using ih h

/-! ## Claim C2 -/

/-- C2 counterexample: for a token absent from the session store, the `cancel:`
action does NOT reply "Session not found." — it clears the inline keyboard and
replies "Cancelled.", because the handler pops the token without checking
whether it exists (bot.py lines 864-874). -/
theorem c2_counterexample :
    callbacksStep ⟨0, "", 0, [], false⟩ [] (CbAction.cancel "missing")
      = ([], [BotEvent.editMarkup, BotEvent.reply "Cancelled."]) ∧
    BotEvent.reply "Session not found." ∉
      (callbacksStep ⟨0, "", 0, [], false⟩ [] (CbAction.cancel "missing")).2 := by
  decide

/-- C2 (amended): for every token not in the session store, the `back:`, `q:`
and `go:` actions reply "Session not found." and have no other observable
effect (the store is unchanged and no other event is emitted); `cancel:` also
leaves the store unchanged and deletes no status message, but it edits the
message reply markup and replies "Cancelled." instead of "Session not found.". -/
theorem c2_amended (env : JobEnv) (s : Sessions) (tok p m : String)
    (h : lookupSession s tok = none) :
    callbacksStep env s (CbAction.back tok) = (s, [BotEvent.reply "Session not found."]) ∧
    callbacksStep env s (CbAction.choosePreset tok p)
      = (s, [BotEvent.reply "Session not found."]) ∧
    callbacksStep env s (CbAction.go tok p m) = (s, [BotEvent.reply "Session not found."]) ∧
    callbacksStep env s (CbAction.cancel tok)
      = (s, [BotEvent.editMarkup, BotEvent.reply "Cancelled."]) := by
  refine ⟨?_, ?_, ?_, ?_⟩ <;>
    simp [callbacksStep, h, erase_of_lookup_none s tok h]

/-- C2 witness at a concrete input. -/
theorem c2_witness :
    lookupSession [] "tok" = none ∧
    callbacksStep ⟨0, "", 0, [], false⟩ [] (CbAction.back "tok")
      = ([], [BotEvent.reply "Session not found."]) :=
  ⟨rfl, (c2_amended ⟨0, "", 0, [], false⟩ [] "tok" "default" "files" rfl).1⟩

/-! ## Go-handler lemmas -/

/-- A `go:` dispatch on a present token removes the token from the store iff it
is not the case that the download succeeded and the delivery phase raised an
escaping exception (in that one case the pop at line 979 is skipped). -/
theorem go_removes_iff (env : JobEnv) (s : Sessions) (tok p m : String) (sess : Session)
    (h : lookupSession s tok = some sess) :
    (lookupSession (callbacksStep env s (CbAction.go tok p m)).1 tok = none
      ↔ ¬(env.returncode = 0 ∧ env.deliveryRaises = true)) := by
  simp only [callbacksStep, h]
  split_ifs with h1 h2 h3 h4 h5 <;>
    simp_all [lookup_erase, lookup_update s tok { sess with statusMsg := true } sess h]

/-- A `go:` dispatch on a present token always launches the downloader
subprocess, whatever the run's outcome. -/
theorem go_launches (env : JobEnv) (s : Sessions) (tok p m : String) (sess : Session)
    (h : lookupSession s tok = some sess) :
    BotEvent.launch ∈ (callbacksStep env s (CbAction.go tok p m)).2 := by
  simp only [callbacksStep, h]
  split_ifs <;> simp

/-! ## Claim C5 -/

/-- C5 counterexample: a `go:` run whose download succeeds (exit code 0) but
whose delivery phase raises an exception that escapes the handler (only
`BadRequest` is caught around the sends) leaves the session in the store:
`sessions.pop(token, None)` at line 979 is not in a `finally` block and is
skipped when the exception propagates. -/
theorem c5_counterexample :
    lookupSession
      ((callbacksStep ⟨0, "", 0, [], true⟩ [("t", ⟨["u"], 1, none, false⟩)]
        (CbAction.go "t" "default" "files")).1) "t"
      = some ⟨["u"], 1, none, true⟩ ∧
    lookupSession
      ((callbacksStep ⟨0, "", 0, [], true⟩ [("t", ⟨["u"], 1, none, false⟩)]
        (CbAction.go "t" "default" "files")).1) "t" ≠ none := by
  decide

/-- C5 (amended): for a `go:` run on a present token, the session is removed
after the job terminates on success and on download failure — but NOT
unconditionally: precisely, the token is gone from the store iff it is not the
case that the download succeeded and the delivery phase raised an escaping
exception; in that remaining case the session survives. -/
theorem c5_amended (env : JobEnv) (s : Sessions) (tok p m : String) (sess : Session)
    (h : lookupSession s tok = some sess) :
    (lookupSession (callbacksStep env s (CbAction.go tok p m)).1 tok = none
      ↔ ¬(env.returncode = 0 ∧ env.deliveryRaises = true)) :=
  go_removes_iff env s tok p m sess h

/-- C5 witness at a concrete input: with no delivery exception the session is
removed. -/
theorem c5_witness :
    lookupSession [("t", (⟨["u"], 1, none, false⟩ : Session))] "t"
      = some ⟨["u"], 1, none, false⟩ ∧
    lookupSession
      ((callbacksStep ⟨0, "", 0, [], false⟩ [("t", ⟨["u"], 1, none, false⟩)]
        (CbAction.go "t" "default" "files")).1) "t" = none := by
  refine ⟨rfl, ?_⟩
  exact (c5_amended ⟨0, "", 0, [], false⟩ [("t", ⟨["u"], 1, none, false⟩)] "t" "default"
    "files" ⟨["u"], 1, none, false⟩ rfl).mpr (by simp)

/-! ## Claim C7 -/

/-- C7: when ZIP mode was chosen, the download succeeded, and the produced
archive is at or above the size ceiling, the archive is never sent
(no `sendZip` event occurs): the handler sets the `zip_too_big` notice for the
user and delivers the workspace files through the classifier/batcher path
(`_send_files_from_dir`), and the session is removed afterwards — no error is
surfaced (the events are exactly the markup edit, the status messages, the
individual-file delivery plan, and the status cleanup). -/
theorem c7_zip_fallback (env : JobEnv) (s : Sessions) (tok p : String) (sess : Session)
    (h : lookupSession s tok = some sess)
    (hrc : env.returncode = 0)
    (hz : MAX_TELEGRAM_FILE_BYTES ≤ env.zipSize)
    (hr : env.deliveryRaises = false) :
    (callbacksStep env s (CbAction.go tok p "zip")).2
      = [BotEvent.editMarkup, BotEvent.createStatus (downloadingText p), BotEvent.launch,
         BotEvent.setStatus "Uploading ZIP...",
         BotEvent.setStatus "ZIP exceeds 2GB — sending as individual files."]
        ++ (sendFilesFromDir env.files).map BotEvent.send ++ [BotEvent.clearStatus] ∧
    BotEvent.sendZip ∉ (callbacksStep env s (CbAction.go tok p "zip")).2 ∧
    lookupSession (callbacksStep env s (CbAction.go tok p "zip")).1 tok = none := by
  have hstep : callbacksStep env s (CbAction.go tok p "zip")
      = (eraseSession (updateSession s tok { sess with statusMsg := true }) tok,
         [BotEvent.editMarkup, BotEvent.createStatus (downloadingText p), BotEvent.launch,
          BotEvent.setStatus "Uploading ZIP...",
          BotEvent.setStatus "ZIP exceeds 2GB — sending as individual files."]
         ++ (sendFilesFromDir env.files).map BotEvent.send ++ [BotEvent.clearStatus]) := by
    simp [callbacksStep, h, hrc, hz, hr]
  rw [hstep]
  refine ⟨rfl, ?_, lookup_erase _ _⟩
  simp [List.mem_append, List.mem_map]

/-- C7 witness at a concrete input. -/
theorem c7_witness :
    lookupSession [("t", (⟨["u"], 1, none, false⟩ : Session))] "t"
      = some ⟨["u"], 1, none, false⟩ ∧
    MAX_TELEGRAM_FILE_BYTES ≤ 2147483648 ∧
    ((callbacksStep ⟨0, "", 2147483648, [], false⟩ [("t", ⟨["u"], 1, none, false⟩)]
        (CbAction.go "t" "default" "zip")).2
      = [BotEvent.editMarkup, BotEvent.createStatus (downloadingText "default"),
         BotEvent.launch, BotEvent.setStatus "Uploading ZIP...",
         BotEvent.setStatus "ZIP exceeds 2GB — sending as individual files."]
        ++ (sendFilesFromDir []).map BotEvent.send ++ [BotEvent.clearStatus] ∧
     BotEvent.sendZip ∉
       (callbacksStep ⟨0, "", 2147483648, [], false⟩ [("t", ⟨["u"], 1, none, false⟩)]
         (CbAction.go "t" "default" "zip")).2 ∧
     lookupSession
       ((callbacksStep ⟨0, "", 2147483648, [], false⟩ [("t", ⟨["u"], 1, none, false⟩)]
         (CbAction.go "t" "default" "zip")).1) "t" = none) :=
  ⟨rfl, by decide,
   c7_zip_fallback ⟨0, "", 2147483648, [], false⟩ [("t", ⟨["u"], 1, none, false⟩)] "t" "default"
     ⟨["u"], 1, none, false⟩ rfl rfl (by decide) rfl⟩

/-! ## Claim C3 -/

/-- C3 counterexample: the claimed mechanism and the claimed impossibility both
fail. The session is NOT removed or locked before the subprocess is launched:
within one `go:` dispatch the token is still present in the store at the lookup,
at the launch, and still at the moment of the pop (third conjunct). And
duplicate rapid start actions with the same token CAN both launch a downloader
subprocess in a schedule the program actually executes: updates are dispatched
strictly sequentially (PTB defaults at bot.py line 1168), but when the first
run's download succeeds and its delivery raises an escaping exception, the pop
at line 979 is skipped, so the second duplicate start still finds the session
and launches again — both traces contain a launch (first two conjuncts). -/
theorem c3_counterexample :
    BotEvent.launch ∈
      (twoSequentialDispatches ⟨0, "", 0, [], true⟩ ⟨0, "", 0, [], false⟩
        [("t", ⟨["u"], 1, none, false⟩)]
        (CbAction.go "t" "default" "files") (CbAction.go "t" "default" "files")).2.1 ∧
    BotEvent.launch ∈
      (twoSequentialDispatches ⟨0, "", 0, [], true⟩ ⟨0, "", 0, [], false⟩
        [("t", ⟨["u"], 1, none, false⟩)]
        (CbAction.go "t" "default" "files") (CbAction.go "t" "default" "files")).2.2 ∧
    tokenPresentAt goHandlerOps true
      = [(GoOp.lookupTok, true), (GoOp.launch, true), (GoOp.popTok, true)] := by
  decide

/-- C3 (amended): the start action is the single edge into the running state and
job executions for one token never overlap, but not by the claimed mechanism:
the session is neither removed nor locked before the subprocess is launched —
it is still in the store at the launch and is popped only after the job
terminates (first conjunct). Duplicate rapid start actions are serialized by
the application's sequential update dispatch: the first dispatch launches
(second conjunct), and the second duplicate start — processed only after the
first handler completed — is rejected with "Session not found." and launches
nothing, provided the first run reached its pop, i.e. did not end in an
escaping delivery exception (third conjunct); when it did, the surviving
session lets the second duplicate start launch another subprocess,
sequentially (fourth conjunct). -/
theorem c3_amended (env1 env2 : JobEnv) (s : Sessions) (tok p1 p2 m1 m2 : String)
    (sess : Session) (h : lookupSession s tok = some sess) :
    tokenPresentAt goHandlerOps true
      = [(GoOp.lookupTok, true), (GoOp.launch, true), (GoOp.popTok, true)] ∧
    BotEvent.launch ∈
      (twoSequentialDispatches env1 env2 s
        (CbAction.go tok p1 m1) (CbAction.go tok p2 m2)).2.1 ∧
    (¬(env1.returncode = 0 ∧ env1.deliveryRaises = true) →
      (twoSequentialDispatches env1 env2 s
          (CbAction.go tok p1 m1) (CbAction.go tok p2 m2)).2.2
        = [BotEvent.reply "Session not found."]) ∧
    ((env1.returncode = 0 ∧ env1.deliveryRaises = true) →
      BotEvent.launch ∈
        (twoSequentialDispatches env1 env2 s
          (CbAction.go tok p1 m1) (CbAction.go tok p2 m2)).2.2) := by
  refine ⟨by decide, ?_, ?_, ?_⟩
  · exact go_launches env1 s tok p1 m1 sess h
  · intro hno
    have hnone : lookupSession (callbacksStep env1 s (CbAction.go tok p1 m1)).1 tok = none :=
      (go_removes_iff env1 s tok p1 m1 sess h).mpr hno
    show (callbacksStep env2 (callbacksStep env1 s (CbAction.go tok p1 m1)).1
      (CbAction.go tok p2 m2)).2 = [BotEvent.reply "Session not found."]
    generalize hg : (callbacksStep env1 s (CbAction.go tok p1 m1)).1 = s1 at hnone ⊢
    simp [callbacksStep, hnone]
  · intro hyes
    rcases hl : lookupSession (callbacksStep env1 s (CbAction.go tok p1 m1)).1 tok
      with _ | sess2
    · exact absurd ((go_removes_iff env1 s tok p1 m1 sess h).mp hl) (by simp [hyes])
    · exact go_launches env2 _ tok p2 m2 sess2 hl

/-- C3 witness at a concrete input: a failed first run (exit code 1) pops the
session, and the second duplicate start is turned away without launching. -/
theorem c3_witness :
    lookupSession [("t", (⟨["u"], 1, none, false⟩ : Session))] "t"
      = some ⟨["u"], 1, none, false⟩ ∧
    (tokenPresentAt goHandlerOps true
      = [(GoOp.lookupTok, true), (GoOp.launch, true), (GoOp.popTok, true)] ∧
    BotEvent.launch ∈
      (twoSequentialDispatches ⟨1, "x", 0, [], false⟩ ⟨0, "", 0, [], false⟩
        [("t", ⟨["u"], 1, none, false⟩)]
        (CbAction.go "t" "default" "files") (CbAction.go "t" "default" "files")).2.1 ∧
    (¬((1 : Int) = 0 ∧ false = true) →
      (twoSequentialDispatches ⟨1, "x", 0, [], false⟩ ⟨0, "", 0, [], false⟩
          [("t", ⟨["u"], 1, none, false⟩)]
          (CbAction.go "t" "default" "files") (CbAction.go "t" "default" "files")).2.2
        = [BotEvent.reply "Session not found."]) ∧
    (((1 : Int) = 0 ∧ false = true) →
      BotEvent.launch ∈
        (twoSequentialDispatches ⟨1, "x", 0, [], false⟩ ⟨0, "", 0, [], false⟩
          [("t", ⟨["u"], 1, none, false⟩)]
          (CbAction.go "t" "default" "files") (CbAction.go "t" "default" "files")).2.2)) :=
  ⟨rfl,
   c3_amended ⟨1, "x", 0, [], false⟩ ⟨0, "", 0, [], false⟩ [("t", ⟨["u"], 1, none, false⟩)]
     "t" "default" "default" "files" "files" ⟨["u"], 1, none, false⟩ rfl⟩

/-! ## Claim C4 -/

theorem poolStep_preserves (cap : Nat) (s t : List Phase)
    (hst : PoolStep cap s t) (hs : runningCount s ≤ cap) : runningCount t ≤ cap := by
  cases hst with
  | start l1 l2 hlt =>
    simp only [runningCount, List.countP_append, List.countP_cons] at hlt hs ⊢
    simp at hlt hs ⊢
    omega
  | finish l1 l2 =>
    simp only [runningCount, List.countP_append, List.countP_cons] at hs ⊢
    simp at hs ⊢
    omega

/-- C4: starting from any pool of job executions none of which holds the
semaphore, every state reachable by any interleaving of semaphore acquisitions
(`async with DOWNLOAD_SEMAPHORE`) and releases has at most `cap` flows inside
the guarded region — and the downloader subprocess of a flow runs only inside
that region, so at most `cap = CONCURRENCY` (default 1) subprocesses run
simultaneously, for any arrival pattern and any number of sessions. -/
theorem c4_semaphore_bound (cap : Nat) (init s : List Phase)
    (hinit : runningCount init = 0) (h : PoolReachable cap init s) :
    runningCount s ≤ cap := by
  induction h with
  | refl => omega
  | tail _ hstep ih => exact poolStep_preserves _ _ _ hstep ih

/-- C4 witness at a concrete input: capacity 1, two flows, one acquisition. -/
theorem c4_witness :
    runningCount [Phase.pending, Phase.pending] = 0 ∧
    runningCount [Phase.running, Phase.pending] ≤ 1 :=
  ⟨by decide,
   c4_semaphore_bound 1 [Phase.pending, Phase.pending] [Phase.running, Phase.pending]
     (by decide)
     (Relation.ReflTransGen.single (PoolStep.start [] [Phase.pending] (by decide)))⟩

/-! ## Batching lemmas -/

theorem chunkedAux_sound (n : Nat) :
    ∀ (l acc : List α) (c : List α), c ∈ chunkedAux n l acc → ∀ x ∈ c, x ∈ acc ∨ x ∈ l := by
  intro l
  induction l with
  | nil =>
    intro acc c hc x hx
    by_cases ha : acc.isEmpty
    · simp [chunkedAux, ha] at hc
    · simp [chunkedAux, ha] at hc
      subst hc
      exact Or.inl (List.mem_reverse.mp hx)
  | cons y ys ih =>
    intro acc c hc x hx
    by_cases hlen : ((y :: acc).length == n) = true
    · simp only [chunkedAux, hlen, if_true, List.mem_cons] at hc
      rcases hc with rfl | hc
      · rcases List.mem_cons.mp (List.mem_reverse.mp hx) with rfl | hx2
        · exact Or.inr (List.mem_cons_self _ _)
        · exact Or.inl hx2
      · rcases ih [] c hc x hx with h | h
        · simp at h
        · exact Or.inr (List.mem_cons_of_mem _ h)
    · simp only [chunkedAux, hlen, if_false] at hc
      rcases ih (y :: acc) c hc x hx with h | h
      · rcases List.mem_cons.mp h with rfl | h2
        · exact Or.inr (List.mem_cons_self _ _)
        · exact Or.inl h2
      · exact Or.inr (List.mem_cons_of_mem _ h)

theorem chunkedAux_cover (n : Nat) :
    ∀ (l acc : List α) (x : α), (x ∈ acc ∨ x ∈ l) → ∃ c ∈ chunkedAux n l acc, x ∈ c := by
  intro l
  induction l with
  | nil =>
    intro acc x hx
    rcases hx with hx | hx
    · have ha : acc.isEmpty = false := by
        cases acc
        · simp at hx
        · rfl
      refine ⟨acc.reverse, ?_, List.mem_reverse.mpr hx⟩
      simp [chunkedAux, ha]
    · simp at hx
  | cons y ys ih =>
    intro acc x hx
    by_cases hlen : ((y :: acc).length == n) = true
    · rcases hx with hx | hx
      · refine ⟨(y :: acc).reverse, ?_, ?_⟩
        · simp only [chunkedAux, hlen, if_true, List.mem_cons]
          exact Or.inl trivial
        · exact List.mem_reverse.mpr (List.mem_cons_of_mem _ hx)
      · rcases List.mem_cons.mp hx with rfl | hx2
        · refine ⟨(x :: acc).reverse, ?_, ?_⟩
          · simp only [chunkedAux, hlen, if_true, List.mem_cons]
            exact Or.inl trivial
          · exact List.mem_reverse.mpr (List.mem_cons_self _ _)
        · obtain ⟨c, hc, hxc⟩ := ih [] x (Or.inr hx2)
          refine ⟨c, ?_, hxc⟩
          simp only [chunkedAux, hlen, if_true, List.mem_cons]
          exact Or.inr hc
    · rcases hx with hx | hx
      · obtain ⟨c, hc, hxc⟩ := ih (y :: acc) x (Or.inl (List.mem_cons_of_mem _ hx))
        refine ⟨c, ?_, hxc⟩
        simpa only [chunkedAux, hlen, if_false] using hc
      · rcases List.mem_cons.mp hx with rfl | hx2
        · obtain ⟨c, hc, hxc⟩ := ih (x :: acc) x (Or.inl (List.mem_cons_self _ _))
          refine ⟨c, ?_, hxc⟩
          simpa only [chunkedAux, hlen, if_false] using hc
        · obtain ⟨c, hc, hxc⟩ := ih (y :: acc) x (Or.inr hx2)
          refine ⟨c, ?_, hxc⟩
          simpa only [chunkedAux, hlen, if_false] using hc

theorem mem_chunked (n : Nat) (l : List α) (c : List α) (hc : c ∈ chunked n l) :
    ∀ x ∈ c, x ∈ l := by
  intro x hx
  rcases chunkedAux_sound n l [] c hc x hx with h | h
  · simp at h
  · exact h

theorem chunked_cover (n : Nat) (l : List α) (x : α) (hx : x ∈ l) :
    ∃ c ∈ chunked n l, x ∈ c :=
  chunkedAux_cover n l [] x (Or.inr hx)

/-! ## Classification lemmas -/

theorem audioFile_not_video (f : FileEntry) (h : isAudioFile f = true) :
    isVideoFile f = false := by
  simp only [isAudioFile, audioExts, decide_eq_true_eq, List.mem_cons,
    List.not_mem_nil, or_false] at h
  simp only [isVideoFile, videoExts, decide_eq_false_iff_not, List.mem_cons,
    List.not_mem_nil, or_false]
  rcases h with h | h | h | h <;> simp [h]

theorem tooLarge_mem_map_video (l : List FileEntry) (f : FileEntry)
    (h : SendAction.tooLargeNotice f ∈ l.map videoAction) : f ∈ l := by
  rcases List.mem_map.mp h with ⟨v, hv, heq⟩
  unfold videoAction at heq
  by_cases hs : MAX_TELEGRAM_FILE_BYTES ≤ v.size
  · rw [if_pos hs] at heq
    injection heq with h2
    subst h2
    exact hv
  · rw [if_neg hs] at heq
    exact absurd heq (by simp)

theorem tooLarge_mem_map_other (l : List FileEntry) (f : FileEntry)
    (h : SendAction.tooLargeNotice f ∈ l.map otherAction) : f ∈ l := by
  rcases List.mem_map.mp h with ⟨v, hv, heq⟩
  unfold otherAction at heq
  by_cases hs : MAX_TELEGRAM_FILE_BYTES ≤ v.size
  · rw [if_pos hs] at heq
    injection heq with h2
    subst h2
    exact hv
  · rw [if_neg hs] at heq
    exact absurd heq (by simp)

theorem sendVideo_not_mem_video (l : List FileEntry) (f : FileEntry)
    (hsz : MAX_TELEGRAM_FILE_BYTES ≤ f.size) :
    SendAction.sendVideo f ∉ l.map videoAction := by
  intro hmem
  rcases List.mem_map.mp hmem with ⟨v, _, heq⟩
  unfold videoAction at heq
  by_cases hs : MAX_TELEGRAM_FILE_BYTES ≤ v.size
  · rw [if_pos hs] at heq
    exact absurd heq (by simp)
  · rw [if_neg hs] at heq
    injection heq with h2
    subst h2
    exact hs hsz

theorem sendDocument_not_mem_other (l : List FileEntry) (f : FileEntry)
    (hsz : MAX_TELEGRAM_FILE_BYTES ≤ f.size) :
    SendAction.sendDocument f ∉ l.map otherAction := by
  intro hmem
  rcases List.mem_map.mp hmem with ⟨v, _, heq⟩
  unfold otherAction at heq
  by_cases hs : MAX_TELEGRAM_FILE_BYTES ≤ v.size
  · rw [if_pos hs] at heq
    exact absurd heq (by simp)
  · rw [if_neg hs] at heq
    injection heq with h2
    subst h2
    exact hs hsz

/-! ## Claim C1 -/

/-- C1 counterexample: a workspace holding a single audio file exactly at the
2 GiB ceiling. The delivery pipeline puts it into an audio-group transfer
attempt and emits no "too large" notice — audio files are never size-checked
(`_send_audios_as_groups` has no size guard), refuting the claim for audio. -/
theorem c1_counterexample :
    sendFilesFromDir [⟨"big.m4a", true, 2147483648⟩]
      = [SendAction.audioGroup [⟨"big.m4a", true, 2147483648⟩], SendAction.doneNotice] ∧
    SendAction.tooLargeNotice ⟨"big.m4a", true, 2147483648⟩ ∉
      sendFilesFromDir [⟨"big.m4a", true, 2147483648⟩] ∧
    MAX_TELEGRAM_FILE_BYTES ≤ (2147483648 : Nat) := by
  decide

/-- C1 (amended): for a file at or above the ceiling in the workspace of a
successful job, the "skip with a too-large notice" behaviour holds exactly for
video and other (non-audio) files: such a file yields a `file_too_large` notice
and no transfer attempt of any kind; an audio file at or above the ceiling is
instead placed into an audio-group transfer attempt with no size check and no
notice. -/
theorem c1_amended (files : List FileEntry) (f : FileEntry)
    (hmem : f ∈ files) (hsz : MAX_TELEGRAM_FILE_BYTES ≤ f.size) :
    (isAudioFile f = false →
       SendAction.tooLargeNotice f ∈ sendFilesFromDir files ∧
       SendAction.sendVideo f ∉ sendFilesFromDir files ∧
       SendAction.sendDocument f ∉ sendFilesFromDir files ∧
       ∀ g, SendAction.audioGroup g ∈ sendFilesFromDir files → f ∉ g) ∧
    (isAudioFile f = true →
       (∃ g, SendAction.audioGroup g ∈ sendFilesFromDir files ∧ f ∈ g) ∧
       SendAction.tooLargeNotice f ∉ sendFilesFromDir files) := by
  have hne : files.isEmpty = false := by
    cases files
    · simp at hmem
    · rfl
  rw [sendFilesFromDir]
  simp only [hne, Bool.false_eq_true, if_false]
  constructor
  · intro hna
    refine ⟨?_, ?_, ?_, ?_⟩
    · simp only [List.mem_append]
      by_cases hv : isVideoFile f = true
      · have hf1 : f ∈ files.filter isVideoFile := List.mem_filter.mpr ⟨hmem, hv⟩
        have : SendAction.tooLargeNotice f ∈ (files.filter isVideoFile).map videoAction :=
          List.mem_map.mpr ⟨f, hf1, by simp [videoAction, hsz]⟩
        exact Or.inl (Or.inl (Or.inr this))
      · have hf1 : f ∈ files.filter (fun f => !(isAudioFile f) && !(isVideoFile f)) :=
          List.mem_filter.mpr ⟨hmem, by simp [hna, hv]⟩
        have : SendAction.tooLargeNotice f
            ∈ (files.filter (fun f => !(isAudioFile f) && !(isVideoFile f))).map otherAction :=
          List.mem_map.mpr ⟨f, hf1, by simp [otherAction, hsz]⟩
        exact Or.inl (Or.inr this)
    · intro hmem2
      simp only [List.mem_append] at hmem2
      rcases hmem2 with ((h1 | h1) | h1) | h1
      · rcases List.mem_map.mp h1 with ⟨g, _, heq⟩
        simp at heq
      · exact sendVideo_not_mem_video _ f hsz h1
      · rcases List.mem_map.mp h1 with ⟨v, _, heq⟩
        simp only [otherAction] at heq
        split_ifs at heq
      · split_ifs at h1 <;> simp at h1
    · intro hmem2
      simp only [List.mem_append] at hmem2
      rcases hmem2 with ((h1 | h1) | h1) | h1
      · rcases List.mem_map.mp h1 with ⟨g, _, heq⟩
        simp at heq
      · rcases List.mem_map.mp h1 with ⟨v, _, heq⟩
        simp only [videoAction] at heq
        split_ifs at heq
      · exact sendDocument_not_mem_other _ f hsz h1
      · split_ifs at h1 <;> simp at h1
    · intro g hg hfg
      simp only [List.mem_append] at hg
      rcases hg with ((h1 | h1) | h1) | h1
      · rcases List.mem_map.mp h1 with ⟨c, hc, heq⟩
        injection heq with h2
        subst h2
        have hfa : f ∈ files.filter isAudioFile := mem_chunked 10 _ _ hc f hfg
        have := (List.mem_filter.mp hfa).2
        rw [hna] at this
        exact Bool.false_ne_true this
      · rcases List.mem_map.mp h1 with ⟨v, _, heq⟩
        simp only [videoAction] at heq
        split_ifs at heq
      · rcases List.mem_map.mp h1 with ⟨v, _, heq⟩
        simp only [otherAction] at heq
        split_ifs at heq
      · split_ifs at h1 <;> simp at h1
  · intro ha
    constructor
    · have hf1 : f ∈ files.filter isAudioFile := List.mem_filter.mpr ⟨hmem, ha⟩
      obtain ⟨g, hgc, hfg⟩ := chunked_cover 10 _ f hf1
      refine ⟨g, ?_, hfg⟩
      simp only [List.mem_append]
      exact Or.inl (Or.inl (Or.inl (List.mem_map.mpr ⟨g, hgc, rfl⟩)))
    · intro hmem2
      simp only [List.mem_append] at hmem2
      rcases hmem2 with ((h1 | h1) | h1) | h1
      · rcases List.mem_map.mp h1 with ⟨g, _, heq⟩
        simp at heq
      · have hf1 := tooLarge_mem_map_video _ f h1
        have := (List.mem_filter.mp hf1).2
        rw [audioFile_not_video f ha] at this
        exact Bool.false_ne_true this
      · have hf1 := tooLarge_mem_map_other _ f h1
        have := (List.mem_filter.mp hf1).2
        rw [ha] at this
        simp at this
      · split_ifs at h1 <;> simp at h1

/-- C1 witness at a concrete input: a 2 GiB video file. -/
theorem c1_witness :
    ((⟨"v.mp4", true, 2147483648⟩ : FileEntry) ∈ [(⟨"v.mp4", true, 2147483648⟩ : FileEntry)]) ∧
    MAX_TELEGRAM_FILE_BYTES ≤ (⟨"v.mp4", true, 2147483648⟩ : FileEntry).size ∧
    ((isAudioFile ⟨"v.mp4", true, 2147483648⟩ = false →
       SendAction.tooLargeNotice ⟨"v.mp4", true, 2147483648⟩
         ∈ sendFilesFromDir [⟨"v.mp4", true, 2147483648⟩] ∧
       SendAction.sendVideo ⟨"v.mp4", true, 2147483648⟩
         ∉ sendFilesFromDir [⟨"v.mp4", true, 2147483648⟩] ∧
       SendAction.sendDocument ⟨"v.mp4", true, 2147483648⟩
         ∉ sendFilesFromDir [⟨"v.mp4", true, 2147483648⟩] ∧
       ∀ g, SendAction.audioGroup g ∈ sendFilesFromDir [⟨"v.mp4", true, 2147483648⟩] →
         (⟨"v.mp4", true, 2147483648⟩ : FileEntry) ∉ g) ∧
     (isAudioFile ⟨"v.mp4", true, 2147483648⟩ = true →
       (∃ g, SendAction.audioGroup g ∈ sendFilesFromDir [⟨"v.mp4", true, 2147483648⟩] ∧
         (⟨"v.mp4", true, 2147483648⟩ : FileEntry) ∈ g) ∧
       SendAction.tooLargeNotice ⟨"v.mp4", true, 2147483648⟩
         ∉ sendFilesFromDir [⟨"v.mp4", true, 2147483648⟩])) :=
  ⟨by decide, by decide,
   c1_amended [⟨"v.mp4", true, 2147483648⟩] ⟨"v.mp4", true, 2147483648⟩
     (by decide) (by decide)⟩

/-! ## Cover image lemmas -/

theorem mem_coverCandidates (files : List FileEntry) (c : FileEntry) :
    c ∈ coverCandidates files ↔ c ∈ files ∧ conventionalCover c = true := by
  simp only [coverCandidates, conventionalCover, List.mem_filter, List.mem_flatMap,
    globMatch, Bool.and_eq_true, List.any_eq_true]
  tauto

theorem pickLargestFrom_mem (b : FileEntry) (l : List FileEntry) :
    pickLargestFrom b l = b ∨ pickLargestFrom b l ∈ l := by
  induction l generalizing b with
  | nil => exact Or.inl rfl
  | cons f fs ih =>
    simp only [pickLargestFrom]
    split_ifs
    · rcases ih f with h | h
      · refine Or.inr ?_
        rw [h]
        exact List.mem_cons_self _ _
      · exact Or.inr (List.mem_cons_of_mem _ h)
    · rcases ih b with h | h
      · exact Or.inl h
      · exact Or.inr (List.mem_cons_of_mem _ h)

theorem pickLargestFrom_ge (b : FileEntry) (l : List FileEntry) :
    b.size ≤ (pickLargestFrom b l).size ∧ ∀ x ∈ l, x.size ≤ (pickLargestFrom b l).size := by
  induction l generalizing b with
  | nil => exact ⟨le_refl _, by simp⟩
  | cons f fs ih =>
    simp only [pickLargestFrom]
    split_ifs with hf
    · obtain ⟨h1, h2⟩ := ih f
      refine ⟨le_trans (le_of_lt hf) h1, ?_⟩
      intro x hx
      rcases List.mem_cons.mp hx with rfl | hx2
      · exact h1
      · exact h2 x hx2
    · obtain ⟨h1, h2⟩ := ih b
      refine ⟨h1, ?_⟩
      intro x hx
      rcases List.mem_cons.mp hx with rfl | hx2
      · exact le_trans (Nat.le_of_not_lt hf) h1
      · exact h2 x hx2

theorem coverCandidates_nil_of_no_conventional (files : List FileEntry)
    (h : ∀ f ∈ files, conventionalCover f = false) : coverCandidates files = [] := by
  rcases hcc : coverCandidates files with _ | ⟨c, cs⟩
  · rfl
  · obtain ⟨hcf, hconv⟩ := (mem_coverCandidates files c).mp (hcc ▸ List.mem_cons_self c cs)
    rw [h c hcf] at hconv
    exact absurd hconv (by simp)

/-! ## Claim C10 -/

/-- C10 counterexample: a tree holding `Cover.jpg` (small) and `big.png`
(large). The conventional name `cover` matches `Cover.jpg` case-insensitively
(shown by the lowercased comparison), yet `_find_cover_image` returns
`big.png`: its `root.glob("cover.*")` patterns are case-sensitive and the list
`("cover", "folder", "artwork", "Artwork", "Front", "front")` contains no
`"Cover"`, so the conventionally-named file is not preferred and the
largest-image fallback wins. -/
theorem c10_counterexample :
    findCoverImage [⟨"Cover.jpg", true, 100⟩, ⟨"big.png", true, 999⟩]
      = some ⟨"big.png", true, 999⟩ ∧
    strStartsWith (lowerStr "Cover.jpg") ("cover" ++ ".") = true ∧
    findCoverImage [⟨"Cover.jpg", true, 100⟩, ⟨"big.png", true, 999⟩]
      ≠ some ⟨"Cover.jpg", true, 100⟩ := by
  decide

/-- C10 (amended): the preferred conventional names are exactly the six
case-sensitive spellings `cover`, `folder`, `artwork`, `Artwork`, `Front`,
`front`, matched only against files directly under the root: (1) whenever such
a conventionally-named image file exists, the chosen cover is one of them;
(2) when no image file exists at all, no cover is found and the previously
resolved poster URL is fetched on demand; (3) when images exist but none is
conventionally named, the chosen cover is an image file of maximal size in the
whole tree. -/
theorem c10_amended (files : List FileEntry) (url : String) :
    (∀ f ∈ files, conventionalCover f = true →
        ∃ c, findCoverImage files = some c ∧ c ∈ files ∧ conventionalCover c = true) ∧
    ((∀ f ∈ files, isImageFile f = false) →
        findCoverImage files = none ∧
        thumbSource files (some url) = ThumbSource.fetchPoster url) ∧
    ((∀ f ∈ files, conventionalCover f = false) →
        ∀ g ∈ files, isImageFile g = true →
          ∃ m, findCoverImage files = some m ∧ m ∈ files ∧ isImageFile m = true ∧
            ∀ x ∈ files, isImageFile x = true → x.size ≤ m.size) := by
  refine ⟨?_, ?_, ?_⟩
  · intro f hf hconv
    have hc : f ∈ coverCandidates files := (mem_coverCandidates files f).mpr ⟨hf, hconv⟩
    rcases hcc : coverCandidates files with _ | ⟨c, cs⟩
    · rw [hcc] at hc
      simp at hc
    · refine ⟨c, ?_, ?_⟩
      · unfold findCoverImage
        rw [hcc]
      · exact (mem_coverCandidates files c).mp (hcc ▸ List.mem_cons_self c cs)
  · intro hni
    have hcc : coverCandidates files = [] := by
      apply coverCandidates_nil_of_no_conventional
      intro f hf
      unfold conventionalCover
      rw [hni f hf]
      simp
    have hfl : files.filter isImageFile = [] := by
      rw [List.filter_eq_nil_iff]
      intro f hf
      rw [hni f hf]
      simp
    have hfind : findCoverImage files = none := by
      unfold findCoverImage
      rw [hcc, hfl]
      rfl
    refine ⟨hfind, ?_⟩
    unfold thumbSource
    rw [hfind]
  · intro hnc g hg hgi
    have hcc : coverCandidates files = [] := coverCandidates_nil_of_no_conventional files hnc
    have hgf : g ∈ files.filter isImageFile := List.mem_filter.mpr ⟨hg, hgi⟩
    rcases hfl : files.filter isImageFile with _ | ⟨c, cs⟩
    · rw [hfl] at hgf
      simp at hgf
    · have hfind : findCoverImage files = some (pickLargestFrom c cs) := by
        unfold findCoverImage
        rw [hcc, hfl]
        rfl
      have hmemfl : pickLargestFrom c cs ∈ files.filter isImageFile := by
        rw [hfl]
        rcases pickLargestFrom_mem c cs with h | h
        · rw [h]
          exact List.mem_cons_self _ _
        · exact List.mem_cons_of_mem _ h
      obtain ⟨hm1, hm2⟩ := List.mem_filter.mp hmemfl
      refine ⟨pickLargestFrom c cs, hfind, hm1, hm2, ?_⟩
      intro x hx hxi
      have hxf : x ∈ files.filter isImageFile := List.mem_filter.mpr ⟨hx, hxi⟩
      rw [hfl] at hxf
      obtain ⟨h1, h2⟩ := pickLargestFrom_ge c cs
      rcases List.mem_cons.mp hxf with rfl | hx2
      · exact h1
      · exact h2 x hx2

/-- C10 witness at a concrete input: a conventionally-named `cover.jpg` is
preferred over a larger image. -/
theorem c10_witness :
    ((⟨"cover.jpg", true, 10⟩ : FileEntry)
       ∈ [(⟨"cover.jpg", true, 10⟩ : FileEntry), ⟨"big.png", true, 999⟩]) ∧
    conventionalCover ⟨"cover.jpg", true, 10⟩ = true ∧
    (∃ c, findCoverImage [(⟨"cover.jpg", true, 10⟩ : FileEntry), ⟨"big.png", true, 999⟩]
        = some c ∧
      c ∈ [(⟨"cover.jpg", true, 10⟩ : FileEntry), ⟨"big.png", true, 999⟩] ∧
      conventionalCover c = true) :=
  ⟨by decide, by decide,
   (c10_amended [⟨"cover.jpg", true, 10⟩, ⟨"big.png", true, 999⟩] "u").1
     ⟨"cover.jpg", true, 10⟩ (by decide) (by decide)⟩

end Gamdl
